import Mathlib

/-!
Shallow embedding of the boids simulation (`src/main.rs`) and proofs about it.

Modelling conventions:
* `f32` arithmetic is idealised as real arithmetic (`ℝ`); `Vec2` mirrors glam's
  2-D vector with the operations the program uses.
* An ECS `Entity` is a stable natural-number identity; the agent store
  (`boid_query`) is a partial map `Entity → Option BoidState`.
* A `Transform` is reduced to the data the program reads and writes: the 2-D
  translation and the rotation angle about the Z axis (the program only ever
  writes Z rotations: `rotate_z(0.0)` at spawn and
  `Quat::from_axis_angle(Vec3::Z, _)` in `movement_system`).
* `Quat::angle_between(from_rotation_arc_2d(X, d))` for Z rotations equals the
  circular distance between the rotation angle and the polar angle of `d`,
  which is `Real.arccos (Real.cos (θ - α))`; the polar angle of a vector is
  `Complex.arg`, matching `f32::atan2` (range `(-π, π]`, `atan2 0 0 = 0`).
* Fallible control flow is made explicit: the `todo!()` panics in
  `flocking_dv` and `velocity_system` are modelled as `none`, and the
  kd-tree query result is the list of entity identities it yields.
-/

open Classical

/-- Two-dimensional vector over the reals, modelling glam `Vec2` (`f32` idealised as `ℝ`). -/
@[ext]
structure Vec2 where
  x : ℝ
  y : ℝ

/-- Constant `Vec2::ZERO` / `Vec2::default()`. -/
def Vec2.zero : Vec2 := ⟨0, 0⟩

/-- Componentwise vector addition. -/
def Vec2.add (a b : Vec2) : Vec2 := ⟨a.x + b.x, a.y + b.y⟩

/-- Componentwise vector subtraction. -/
def Vec2.sub (a b : Vec2) : Vec2 := ⟨a.x - b.x, a.y - b.y⟩

/-- Multiplication of a vector by a scalar (`v * s`). -/
def Vec2.scale (v : Vec2) (s : ℝ) : Vec2 := ⟨v.x * s, v.y * s⟩

/-- Division of a vector by a scalar (`v / s`). -/
noncomputable def Vec2.divS (v : Vec2) (s : ℝ) : Vec2 := ⟨v.x / s, v.y / s⟩

/-- Squared length, written `v.x * v.x + v.y * v.y` in the source (`flocking_dv`). -/
def Vec2.lengthSq (v : Vec2) : ℝ := v.x * v.x + v.y * v.y

/-- glam `Vec2::length`: square root of the dot product with itself. -/
noncomputable def Vec2.length (v : Vec2) : ℝ := Real.sqrt v.lengthSq

/-- Constant `BOID_BOUNDARY_SIZE: f32 = 150.`. -/
def BOID_BOUNDARY_SIZE : ℝ := 150

/-- Constant `BOID_VIS_RANGE: f32 = 40.`. -/
def BOID_VIS_RANGE : ℝ := 40

/-- Constant `VIS_RANGE_SQ = BOID_VIS_RANGE * BOID_VIS_RANGE`. -/
def VIS_RANGE_SQ : ℝ := BOID_VIS_RANGE * BOID_VIS_RANGE

/-- Constant `BOID_PROT_RANGE: f32 = 8.`. -/
def BOID_PROT_RANGE : ℝ := 8

/-- Constant `PROT_RANGE_SQ = BOID_PROT_RANGE * BOID_PROT_RANGE`. -/
def PROT_RANGE_SQ : ℝ := BOID_PROT_RANGE * BOID_PROT_RANGE

/-- Constant `BOID_FOV: f32 = 120. * PI / 180.`. -/
noncomputable def BOID_FOV : ℝ := 120 * Real.pi / 180

/-- Constant `BOID_CENTER_FACTOR: f32 = 0.0005`. -/
def BOID_CENTER_FACTOR : ℝ := 0.0005

/-- Constant `BOID_MATCHING_FACTOR: f32 = 0.05`. -/
def BOID_MATCHING_FACTOR : ℝ := 0.05

/-- Constant `BOID_AVOID_FACTOR: f32 = 0.05`. -/
def BOID_AVOID_FACTOR : ℝ := 0.05

/-- Constant `BOID_TURN_FACTOR: f32 = 0.2`. -/
def BOID_TURN_FACTOR : ℝ := 0.2

/-- Constant `BOID_MOUSE_CHASE_FACTOR: f32 = 0.0005`. -/
def BOID_MOUSE_CHASE_FACTOR : ℝ := 0.0005

/-- Constant `BOID_MIN_SPEED: f32 = 2.0`. -/
def BOID_MIN_SPEED : ℝ := 2.0

/-- Constant `BOID_MAX_SPEED: f32 = 4.0`. -/
def BOID_MAX_SPEED : ℝ := 4.0

/-- A stable ECS entity identity. -/
abbrev Entity := ℕ

/-- The per-agent record: `Transform` translation (xy), `Transform` rotation
(as a Z-axis angle) and `Velocity`. -/
structure BoidState where
  pos : Vec2
  rot : ℝ
  vel : Vec2

/-- Polar angle of a vector: `dir.y.atan2(dir.x)`, modelled by `Complex.arg`. -/
noncomputable def dirAngle (v : Vec2) : ℝ := Complex.arg ⟨v.x, v.y⟩

/-- Source `angle_towards(a, b)`: the polar angle of `b - a`. -/
noncomputable def angle_towards (a b : Vec2) : ℝ := dirAngle (Vec2.sub b a)

/-- The vector from `a` to `b` (`t1.translation - t0.translation` in xy). -/
def vecBetween (a b : Vec2) : Vec2 := Vec2.sub b a

/-- Circular angular distance between two Z-rotation angles, the value of
`Quat::angle_between` for the corresponding quaternions (`2·acos|cos((a-b)/2)|
= arccos (cos (a - b))`, always in `[0, π]`). -/
noncomputable def angularDist (a b : ℝ) : ℝ := Real.arccos (Real.cos (a - b))

/-- The field-of-view exclusion test in `flocking_dv`: the candidate direction
is normalizable (`try_normalize` succeeds, i.e. the vector is nonzero) and the
angle between the agent's rotation and the direction to the candidate exceeds
`BOID_FOV`. When the vector is zero `try_normalize` fails and the code performs
no exclusion. -/
def fovExcludes (rot : ℝ) (v : Vec2) : Prop :=
  v ≠ Vec2.zero ∧ BOID_FOV < angularDist rot (dirAngle v)

/-- The running accumulators of the `flocking_dv` scan loop. -/
@[ext]
structure Accum where
  vecAway : Vec2
  avgPos : Vec2
  avgVel : Vec2
  neighboringBoids : ℕ
  closeBoids : ℕ

/-- All accumulators start at their defaults. -/
def Accum.init : Accum := ⟨Vec2.zero, Vec2.zero, Vec2.zero, 0, 0⟩

/-- One iteration of the `flocking_dv` scan loop over a kd-tree candidate `e`.
`none` models the `todo!()` panic taken when the candidate identity does not
resolve in the agent store. The branches mirror the source exactly: self skip,
squared-visibility-range skip (`dist_sq > VIS_RANGE_SQ`), field-of-view skip,
then the protected-range classification (`dist_sq < PROT_RANGE_SQ`). -/
noncomputable def flockingStep (self : Entity) (t0 : BoidState)
    (store : Entity → Option BoidState) (acc : Accum) (e : Entity) : Option Accum :=
  match store e with
  | none => none
  | some other =>
    if e = self then some acc
    else
      let vec_to := vecBetween t0.pos other.pos
      let dist_sq := vec_to.lengthSq
      if VIS_RANGE_SQ < dist_sq then some acc
      else if fovExcludes t0.rot vec_to then some acc
      else if dist_sq < PROT_RANGE_SQ then
        some { acc with vecAway := Vec2.sub acc.vecAway vec_to,
                        closeBoids := acc.closeBoids + 1 }
      else
        some { acc with avgPos := Vec2.add acc.avgPos vec_to,
                        avgVel := Vec2.add acc.avgVel other.vel,
                        neighboringBoids := acc.neighboringBoids + 1 }

/-- The `flocking_dv` scan loop over the list of kd-tree candidates; a `none`
step (stale identity, `todo!()`) aborts the whole computation. -/
noncomputable def flockingLoop (self : Entity) (t0 : BoidState)
    (store : Entity → Option BoidState) (acc : Accum) : List Entity → Option Accum
  | [] => some acc
  | e :: rest =>
    match flockingStep self t0 store acc e with
    | none => none
    | some a => flockingLoop self t0 store a rest

/-- Accumulators after scanning all candidates, starting from the defaults. -/
noncomputable def flockingAccum (store : Entity → Option BoidState) (self : Entity)
    (t0 : BoidState) (neighbors : List Entity) : Option Accum :=
  flockingLoop self t0 store Accum.init neighbors

/-- The tail of `flocking_dv`: combine the accumulators into the velocity
delta, then add the mouse-chase term when a cursor world position is available
(`cursor` models `window.cursor_position()` composed with
`viewport_to_world_2d`, `none` when either is unavailable). -/
noncomputable def flockingFinish (t0 : BoidState) (cursor : Option Vec2)
    (acc : Accum) : Vec2 :=
  let dv := Vec2.zero
  let dv := if 0 < acc.neighboringBoids then
      Vec2.add (Vec2.add dv
          ((acc.avgPos.divS (acc.neighboringBoids : ℝ)).scale BOID_CENTER_FACTOR))
        ((acc.avgVel.divS (acc.neighboringBoids : ℝ)).scale BOID_MATCHING_FACTOR)
    else dv
  let dv := if 0 < acc.closeBoids then
      Vec2.add dv ((acc.vecAway.divS (acc.closeBoids : ℝ)).scale BOID_AVOID_FACTOR)
    else dv
  match cursor with
  | some c => Vec2.add dv ((vecBetween t0.pos c).scale BOID_MOUSE_CHASE_FACTOR)
  | none => dv

/-- Function `flocking_dv` for one agent: scan the candidates, then finish.  `none`
models the `todo!()` panic on a stale candidate identity. -/
noncomputable def flockingDv (store : Entity → Option BoidState) (self : Entity)
    (t0 : BoidState) (neighbors : List Entity) (cursor : Option Vec2) : Option Vec2 :=
  (flockingAccum store self t0 neighbors).map (flockingFinish t0 cursor)

/-- Rust `usize::div_ceil`: `(a + b - 1) / b`. -/
def divCeilN (a b : ℕ) : ℕ := (a + b - 1) / b

/-- Rust `slice::chunks`: contiguous chunks of size `n`, the last possibly
shorter.  (For `n = 0` Rust panics; this model then produces singleton chunks,
a case kept outside every theorem's hypotheses.) -/
def chunksOf {α : Type*} (n : ℕ) : List α → List (List α)
  | [] => []
  | x :: xs => (x :: xs.take (n - 1)) :: chunksOf n (xs.drop (n - 1))
termination_by l => l.length
decreasing_by simp [List.length_drop]; omega

/-- System `flocking_system`: partition the collected boid list into chunks of
`boids.len().div_ceil(pool.thread_num())`, run `flocking_dv` over each chunk,
and concatenate the per-chunk `DvEvent` batches (entity/delta pairs) in spawn
order. -/
noncomputable def flockingDeltas (store : Entity → Option BoidState)
    (kd : Vec2 → List Entity) (cursor : Option Vec2) (workers : ℕ)
    (boids : List (Entity × BoidState)) : List (Entity × Option Vec2) :=
  ((chunksOf (divCeilN boids.length workers) boids).map
    (fun chunk => chunk.map
      (fun b => (b.1, flockingDv store b.1 b.2 (kd b.2.pos) cursor)))).flatten

/-- The boundary-steering block of `velocity_system`: four independent checks
against the visible-region half-extents, each adding or subtracting
`BOID_TURN_FACTOR` (conditions written `translation < -width`,
`translation > width` in the source). -/
noncomputable def applyBoundary (pos res v : Vec2) : Vec2 :=
  let width := (res.x - BOID_BOUNDARY_SIZE) / 2
  let height := (res.y - BOID_BOUNDARY_SIZE) / 2
  let vx := v.x
  let vx := if pos.x < -width then vx + BOID_TURN_FACTOR else vx
  let vx := if width < pos.x then vx - BOID_TURN_FACTOR else vx
  let vy := v.y
  let vy := if pos.y < -height then vy + BOID_TURN_FACTOR else vy
  let vy := if height < pos.y then vy - BOID_TURN_FACTOR else vy
  ⟨vx, vy⟩

/-- The speed-clamping block of `velocity_system`: `speed` is computed once
before either branch; both comparisons use that original `speed`, and each
taken branch multiplies the (possibly already rescaled) velocity by
`BOID_MIN_SPEED / speed` resp. `BOID_MAX_SPEED / speed`.  Note the real-number
convention `x / 0 = 0` cannot represent the `f32` NaN this produces at
`speed = 0`; `clampRescaleDividesByZero` below records exactly when a taken
branch divides by a zero magnitude. -/
noncomputable def clampSpeed (v : Vec2) : Vec2 :=
  let speed := v.length
  let v1 := if speed < BOID_MIN_SPEED then v.scale (BOID_MIN_SPEED / speed) else v
  if BOID_MAX_SPEED < speed then v1.scale (BOID_MAX_SPEED / speed) else v1

/-- Holds exactly when `clampSpeed` executes a rescaling branch whose divisor
(the pre-clamp magnitude) is zero — the division-by-zero hazard of
`velocity_system`'s clamp (in `f32`: a NaN velocity). -/
def clampRescaleDividesByZero (v : Vec2) : Prop :=
  (v.length < BOID_MIN_SPEED ∨ BOID_MAX_SPEED < v.length) ∧ v.length = 0

/-- The per-event body of `velocity_system` once the lookup succeeded:
apply the delta to the velocity, steer at the boundary, clamp the speed. -/
noncomputable def velocityStep (res dv : Vec2) (b : BoidState) : BoidState :=
  { b with vel := clampSpeed (applyBoundary b.pos res (Vec2.add b.vel dv)) }

/-- The per-event body of `velocity_system` including the store lookup;
`none` models the `todo!()` panic when the event's entity does not resolve. -/
noncomputable def velocityUpdate (store : Entity → Option BoidState) (res : Vec2)
    (e : Entity) (dv : Vec2) : Option BoidState :=
  match store e with
  | none => none
  | some b => velocityStep res dv b

/-- The per-boid body of `movement_system`: recompute the rotation from the
velocity direction (`angle_towards(Vec2::ZERO, velocity)`), then advance the
translation by the velocity. -/
noncomputable def movementStep (b : BoidState) : BoidState :=
  { b with rot := angle_towards Vec2.zero b.vel,
           pos := ⟨b.pos.x + b.vel.x, b.pos.y + b.vel.y⟩ }

/-- One full integration tick for one boid: `velocity_system` then
`movement_system` (the `FixedUpdate` chain after `flocking_system`). -/
noncomputable def integrateBoid (res dv : Vec2) (b : BoidState) : BoidState :=
  movementStep (velocityStep res dv b)

/-- A boid at the origin, facing along +x, at rest. -/
def boidAtOrigin : BoidState := ⟨⟨0, 0⟩, 0, Vec2.zero⟩

/-- Concrete store: one neighbor 5 units directly ahead of the origin. -/
def storeAhead : Entity → Option BoidState :=
  fun e => if e = 1 then some ⟨⟨5, 0⟩, 0, Vec2.zero⟩ else none

/-- Concrete store: one neighbor 10 units directly behind the origin. -/
def storeBehind : Entity → Option BoidState :=
  fun e => if e = 1 then some ⟨⟨-10, 0⟩, 0, Vec2.zero⟩ else none

/-- Concrete store: one neighbor 10 units to the side (at 90° from +x). -/
def storeSide : Entity → Option BoidState :=
  fun e => if e = 1 then some ⟨⟨0, 10⟩, 0, Vec2.zero⟩ else none

/-- Concrete store: two close neighbors at (0, 1) and (0, -1) (symmetric about
the origin, both at 90° from the +x facing) and one neighbor exactly
coincident with the origin. -/
def storeCoincident : Entity → Option BoidState :=
  fun e =>
    if e = 1 then some ⟨⟨0, 1⟩, 0, Vec2.zero⟩
    else if e = 2 then some ⟨⟨0, -1⟩, 0, Vec2.zero⟩
    else if e = 3 then some ⟨⟨0, 0⟩, 0, Vec2.zero⟩
    else none

/-! Helper lemmas about the vector model. -/

theorem Vec2.sub_zero' (v : Vec2) : Vec2.sub v Vec2.zero = v := by
  ext <;> simp [Vec2.sub, Vec2.zero]

theorem Vec2.zero_add' (v : Vec2) : Vec2.add Vec2.zero v = v := by
  ext <;> simp [Vec2.add, Vec2.zero]

theorem Vec2.length_nonneg (v : Vec2) : 0 ≤ v.length := Real.sqrt_nonneg _

theorem Vec2.lengthSq_pos {v : Vec2} (h : v ≠ Vec2.zero) : 0 < v.lengthSq := by
  unfold Vec2.lengthSq
  rcases eq_or_ne v.x 0 with hx0 | hx0
  · rcases eq_or_ne v.y 0 with hy0 | hy0
    · exact absurd (by ext <;> simp [Vec2.zero, hx0, hy0]) h
    · have hy : 0 < v.y * v.y := mul_self_pos.2 hy0
      have hx := mul_self_nonneg v.x
      linarith
  · have hx : 0 < v.x * v.x := mul_self_pos.2 hx0
    have hy := mul_self_nonneg v.y
    linarith

theorem Vec2.length_pos {v : Vec2} (h : v ≠ Vec2.zero) : 0 < v.length :=
  Real.sqrt_pos.2 (Vec2.lengthSq_pos h)

theorem Vec2.length_scale (v : Vec2) (c : ℝ) : (v.scale c).length = |c| * v.length := by
  unfold Vec2.length Vec2.scale Vec2.lengthSq
  dsimp only
  rw [show v.x * c * (v.x * c) + v.y * c * (v.y * c)
      = c ^ 2 * (v.x * v.x + v.y * v.y) by ring]
  rw [Real.sqrt_mul (sq_nonneg c), Real.sqrt_sq_eq_abs]

theorem Vec2.divS_eq_scale (v : Vec2) (s : ℝ) : v.divS s = v.scale (1 / s) := by
  ext <;> simp [Vec2.divS, Vec2.scale] <;> ring

theorem Vec2.length_divS (v : Vec2) (s : ℝ) : (v.divS s).length = v.length / |s| := by
  rw [Vec2.divS_eq_scale, Vec2.length_scale]
  rw [abs_div, abs_one, one_div, div_eq_mul_inv, mul_comm]

/-! Helper lemmas about angles and the field-of-view constant. -/

theorem BOID_FOV_eq : BOID_FOV = 2 * Real.pi / 3 := by
  unfold BOID_FOV; ring

theorem BOID_FOV_nonneg : 0 ≤ BOID_FOV := by
  rw [BOID_FOV_eq]; linarith [Real.pi_pos]

theorem BOID_FOV_lt_pi : BOID_FOV < Real.pi := by
  rw [BOID_FOV_eq]; linarith [Real.pi_pos]

theorem half_pi_le_BOID_FOV : Real.pi / 2 ≤ BOID_FOV := by
  rw [BOID_FOV_eq]; linarith [Real.pi_pos]

theorem half_BOID_FOV_lt_half_pi : BOID_FOV / 2 < Real.pi / 2 := by
  rw [BOID_FOV_eq]; linarith [Real.pi_pos]

theorem angularDist_self (a : ℝ) : angularDist a a = 0 := by
  unfold angularDist
  rw [sub_self, Real.cos_zero, Real.arccos_one]

theorem angularDist_zero_pi : angularDist 0 Real.pi = Real.pi := by
  unfold angularDist
  rw [zero_sub, Real.cos_neg, Real.cos_pi, Real.arccos_neg_one]

theorem angularDist_zero_half_pi : angularDist 0 (Real.pi / 2) = Real.pi / 2 := by
  unfold angularDist
  rw [zero_sub, Real.cos_neg, Real.cos_pi_div_two, Real.arccos_zero]

theorem angularDist_zero_neg_half_pi : angularDist 0 (-(Real.pi / 2)) = Real.pi / 2 := by
  unfold angularDist
  rw [zero_sub, neg_neg, Real.cos_pi_div_two, Real.arccos_zero]

theorem dirAngle_of_pos_real {v : Vec2} (hy : v.y = 0) (hx : 0 ≤ v.x) :
    dirAngle v = 0 := by
  unfold dirAngle
  rw [show (⟨v.x, v.y⟩ : ℂ) = ((v.x : ℝ) : ℂ) by apply Complex.ext <;> simp [hy]]
  exact Complex.arg_ofReal_of_nonneg hx

theorem dirAngle_of_neg_real {v : Vec2} (hy : v.y = 0) (hx : v.x < 0) :
    dirAngle v = Real.pi := by
  unfold dirAngle
  rw [show (⟨v.x, v.y⟩ : ℂ) = ((v.x : ℝ) : ℂ) by apply Complex.ext <;> simp [hy]]
  exact Complex.arg_ofReal_of_neg hx

theorem dirAngle_of_pos_imag {v : Vec2} (hx : v.x = 0) (hy : 0 < v.y) :
    dirAngle v = Real.pi / 2 := by
  unfold dirAngle
  rw [show (⟨v.x, v.y⟩ : ℂ) = ((v.y : ℝ) : ℂ) * Complex.I by
    apply Complex.ext <;> simp [hx]]
  rw [Complex.arg_real_mul _ hy, Complex.arg_I]

theorem dirAngle_of_neg_imag {v : Vec2} (hx : v.x = 0) (hy : v.y < 0) :
    dirAngle v = -(Real.pi / 2) := by
  unfold dirAngle
  rw [show (⟨v.x, v.y⟩ : ℂ) = ((-v.y : ℝ) : ℂ) * (-Complex.I) by
    apply Complex.ext <;> simp [hx]]
  rw [Complex.arg_real_mul _ (by linarith : (0 : ℝ) < -v.y), Complex.arg_neg_I]

/-! Branch lemmas for one iteration of the `flocking_dv` scan loop. -/

theorem flockingStep_stale {self : Entity} {t0 : BoidState}
    {store : Entity → Option BoidState} {acc : Accum} {e : Entity}
    (h : store e = none) : flockingStep self t0 store acc e = none := by
  simp [flockingStep, h]

theorem flockingStep_self {self : Entity} {t0 : BoidState}
    {store : Entity → Option BoidState} {acc : Accum} {e : Entity} {other : BoidState}
    (h : store e = some other) (he : e = self) :
    flockingStep self t0 store acc e = some acc := by
  simp only [flockingStep, h]
  rw [if_pos he]

theorem flockingStep_far {self : Entity} {t0 : BoidState}
    {store : Entity → Option BoidState} {acc : Accum} {e : Entity} {other : BoidState}
    (h : store e = some other) (hne : ¬ e = self)
    (hfar : VIS_RANGE_SQ < (vecBetween t0.pos other.pos).lengthSq) :
    flockingStep self t0 store acc e = some acc := by
  simp only [flockingStep, h]
  rw [if_neg hne, if_pos hfar]

theorem flockingStep_fov {self : Entity} {t0 : BoidState}
    {store : Entity → Option BoidState} {acc : Accum} {e : Entity} {other : BoidState}
    (h : store e = some other) (hne : ¬ e = self)
    (hvis : ¬ VIS_RANGE_SQ < (vecBetween t0.pos other.pos).lengthSq)
    (hfov : fovExcludes t0.rot (vecBetween t0.pos other.pos)) :
    flockingStep self t0 store acc e = some acc := by
  simp only [flockingStep, h]
  rw [if_neg hne, if_neg hvis, if_pos hfov]

theorem flockingStep_close {self : Entity} {t0 : BoidState}
    {store : Entity → Option BoidState} {acc : Accum} {e : Entity} {other : BoidState}
    (h : store e = some other) (hne : ¬ e = self)
    (hvis : ¬ VIS_RANGE_SQ < (vecBetween t0.pos other.pos).lengthSq)
    (hfov : ¬ fovExcludes t0.rot (vecBetween t0.pos other.pos))
    (hprot : (vecBetween t0.pos other.pos).lengthSq < PROT_RANGE_SQ) :
    flockingStep self t0 store acc e =
      some { acc with vecAway := Vec2.sub acc.vecAway (vecBetween t0.pos other.pos),
                      closeBoids := acc.closeBoids + 1 } := by
  simp only [flockingStep, h]
  rw [if_neg hne, if_neg hvis, if_neg hfov, if_pos hprot]

theorem flockingStep_neighbor {self : Entity} {t0 : BoidState}
    {store : Entity → Option BoidState} {acc : Accum} {e : Entity} {other : BoidState}
    (h : store e = some other) (hne : ¬ e = self)
    (hvis : ¬ VIS_RANGE_SQ < (vecBetween t0.pos other.pos).lengthSq)
    (hfov : ¬ fovExcludes t0.rot (vecBetween t0.pos other.pos))
    (hprot : ¬ (vecBetween t0.pos other.pos).lengthSq < PROT_RANGE_SQ) :
    flockingStep self t0 store acc e =
      some { acc with avgPos := Vec2.add acc.avgPos (vecBetween t0.pos other.pos),
                      avgVel := Vec2.add acc.avgVel other.vel,
                      neighboringBoids := acc.neighboringBoids + 1 } := by
  simp only [flockingStep, h]
  rw [if_neg hne, if_neg hvis, if_neg hfov, if_neg hprot]

/-! Helper lemmas about the batch scheduler's chunking. -/

theorem chunksOf_flatten {α : Type*} (n : ℕ) (l : List α) :
    (chunksOf n l).flatten = l := by
  induction l using chunksOf.induct n with
  | case1 => rw [chunksOf]; rfl
  | case2 x xs ih =>
    rw [chunksOf]
    simp only [List.flatten_cons, ih, List.cons_append, List.take_append_drop]

theorem flatten_map_map {α β : Type*} (g : α → β) (L : List (List α)) :
    (L.map (fun c => c.map g)).flatten = L.flatten.map g := by
  induction L with
  | nil => rfl
  | cons c L ih => simp only [List.map_cons, List.flatten_cons, List.map_append, ih]

/-! Claim theorems. -/

/-- C1: the claim says a neighbor identity that no longer resolves in the
agent store is skipped and is never a fatal error, in both `flocking_dv` and
`velocity_system`.  The code instead reaches `todo!()` (a panic) in both
places; with an empty store and one queried candidate both computations abort,
which this theorem evaluates at that failing input. -/
theorem stale_reference_fatal :
    flockingAccum (fun _ => none) 0 boidAtOrigin [1] = none ∧
    velocityUpdate (fun _ => none) ⟨800, 400⟩ 1 Vec2.zero = none := by
  constructor
  · simp [flockingAccum, flockingLoop, flockingStep]
  · rfl

/-- C2: the claim says a zero-magnitude velocity is never rescaled by a
division by that magnitude.  In the code `speed = 0` satisfies
`speed < BOID_MIN_SPEED`, so the rescale branch runs and its factor
`BOID_MIN_SPEED / speed` divides by zero (`f32`: a NaN velocity).  This
theorem evaluates the branch condition of `clampSpeed` at the zero velocity:
the taken rescale branch does divide by the zero magnitude. -/
theorem zero_magnitude_clamp_divides :
    Vec2.length Vec2.zero = 0 ∧ clampRescaleDividesByZero Vec2.zero := by
  have h : Vec2.length Vec2.zero = 0 := by
    simp [Vec2.length, Vec2.lengthSq, Vec2.zero]
  refine ⟨h, Or.inl ?_, h⟩
  rw [h]; norm_num [BOID_MIN_SPEED]

/-- C5: over one immutable snapshot (store, kd-tree query, cursor), running the
per-agent delta computation over contiguous chunks of size
`ceil(population / workers)` with `N ≥ 1` workers yields the same
entity-keyed delta list as a single worker. -/
theorem flocking_chunking_invariant (store : Entity → Option BoidState)
    (kd : Vec2 → List Entity) (cursor : Option Vec2) (N : ℕ)
    (boids : List (Entity × BoidState)) (hN : 1 ≤ N) (hboids : boids ≠ []) :
    flockingDeltas store kd cursor N boids = flockingDeltas store kd cursor 1 boids := by
  unfold flockingDeltas
  rw [flatten_map_map, flatten_map_map, chunksOf_flatten, chunksOf_flatten]

/-- Witness for C5 at a concrete snapshot, population 1, two workers. -/
theorem flocking_chunking_invariant_witness :
    1 ≤ 2 ∧ ([((0 : Entity), boidAtOrigin)] ≠ []) ∧
    flockingDeltas (fun _ => none) (fun _ => []) none 2 [(0, boidAtOrigin)] =
      flockingDeltas (fun _ => none) (fun _ => []) none 1 [(0, boidAtOrigin)] :=
  ⟨by norm_num, by simp,
    flocking_chunking_invariant _ _ _ _ _ (by norm_num) (by simp)⟩

/-- C8: after a full integration tick (`velocity_system` then
`movement_system`), the stored rotation equals `angle_towards(Vec2::ZERO, v)`
for the current velocity `v`; the movement pass recomputes the rotation from
the velocity it just used and never changes the velocity. -/
theorem orientation_matches_velocity (res dv : Vec2) (b : BoidState) :
    (integrateBoid res dv b).rot
      = angle_towards Vec2.zero (integrateBoid res dv b).vel ∧
    (integrateBoid res dv b).vel = (velocityStep res dv b).vel :=
  ⟨rfl, rfl⟩

/-- C9: if the scan of the kd-tree candidates completes with zero separation
neighbors and zero cohesion/alignment neighbors, and no cursor target is
available, then `flocking_dv` returns exactly the zero vector. -/
theorem no_survivors_zero_delta (store : Entity → Option BoidState)
    (self : Entity) (t0 : BoidState) (neighbors : List Entity) (acc : Accum)
    (h : flockingAccum store self t0 neighbors = some acc)
    (hclose : acc.closeBoids = 0) (hneigh : acc.neighboringBoids = 0) :
    flockingDv store self t0 neighbors none = some Vec2.zero := by
  unfold flockingDv
  rw [h]
  simp [flockingFinish, hclose, hneigh]

/-- Witness for C9: an empty candidate list with an arbitrary store. -/
theorem no_survivors_zero_delta_witness :
    flockingAccum (fun _ => none) 0 boidAtOrigin [] = some Accum.init ∧
    Accum.init.closeBoids = 0 ∧ Accum.init.neighboringBoids = 0 ∧
    flockingDv (fun _ => none) 0 boidAtOrigin [] none = some Vec2.zero :=
  ⟨rfl, rfl, rfl, no_survivors_zero_delta _ _ _ _ _ rfl rfl rfl⟩

/-- C4: for a nonzero pre-clamp magnitude, the clamped velocity's magnitude
lies in `[BOID_MIN_SPEED, BOID_MAX_SPEED]`; below the minimum the velocity is
rescaled by the positive factor `BOID_MIN_SPEED / speed` (direction unchanged)
to magnitude exactly `BOID_MIN_SPEED`, above the maximum to exactly
`BOID_MAX_SPEED`, and within bounds it is left unchanged. -/
theorem speed_clamp_in_range (v : Vec2) (h : v.length ≠ 0) :
    (BOID_MIN_SPEED ≤ (clampSpeed v).length ∧ (clampSpeed v).length ≤ BOID_MAX_SPEED) ∧
    (v.length < BOID_MIN_SPEED →
      clampSpeed v = v.scale (BOID_MIN_SPEED / v.length) ∧
      (clampSpeed v).length = BOID_MIN_SPEED ∧ 0 < BOID_MIN_SPEED / v.length) ∧
    (BOID_MAX_SPEED < v.length →
      clampSpeed v = v.scale (BOID_MAX_SPEED / v.length) ∧
      (clampSpeed v).length = BOID_MAX_SPEED) ∧
    (BOID_MIN_SPEED ≤ v.length → v.length ≤ BOID_MAX_SPEED → clampSpeed v = v) := by
  have hpos : 0 < v.length := lt_of_le_of_ne (Vec2.length_nonneg v) (Ne.symm h)
  have hmin : (0 : ℝ) < BOID_MIN_SPEED := by norm_num [BOID_MIN_SPEED]
  have hmm : BOID_MIN_SPEED < BOID_MAX_SPEED := by
    norm_num [BOID_MIN_SPEED, BOID_MAX_SPEED]
  by_cases h1 : v.length < BOID_MIN_SPEED
  · have h2 : ¬ BOID_MAX_SPEED < v.length := by linarith
    have hc : clampSpeed v = v.scale (BOID_MIN_SPEED / v.length) := by
      simp only [clampSpeed]
      rw [if_pos h1, if_neg h2]
    have hfac : 0 < BOID_MIN_SPEED / v.length := div_pos hmin hpos
    have hl : (clampSpeed v).length = BOID_MIN_SPEED := by
      rw [hc, Vec2.length_scale, abs_of_pos hfac,
        div_mul_cancel₀ _ (ne_of_gt hpos)]
    exact ⟨⟨hl ▸ le_refl _, by rw [hl]; linarith⟩,
      fun _ => ⟨hc, hl, hfac⟩,
      fun h3 => absurd h3 h2,
      fun h3 _ => absurd h1 (not_lt.2 h3)⟩
  · by_cases h2 : BOID_MAX_SPEED < v.length
    · have hc : clampSpeed v = v.scale (BOID_MAX_SPEED / v.length) := by
        simp only [clampSpeed]
        rw [if_neg h1, if_pos h2]
      have hfac : 0 < BOID_MAX_SPEED / v.length := div_pos (by linarith) hpos
      have hl : (clampSpeed v).length = BOID_MAX_SPEED := by
        rw [hc, Vec2.length_scale, abs_of_pos hfac,
          div_mul_cancel₀ _ (ne_of_gt hpos)]
      exact ⟨⟨by rw [hl]; linarith, hl ▸ le_refl _⟩,
        fun h3 => absurd h3 h1,
        fun _ => ⟨hc, hl⟩,
        fun _ h4 => absurd h2 (not_lt.2 h4)⟩
    · have hc : clampSpeed v = v := by
        simp only [clampSpeed]
        rw [if_neg h1, if_neg h2]
      exact ⟨⟨by rw [hc]; exact not_lt.1 h1, by rw [hc]; exact not_lt.1 h2⟩,
        fun h3 => absurd h3 h1,
        fun h3 => absurd h3 h2,
        fun _ _ => hc⟩

/-- Witness for C4: the spec's own scenario, magnitude 1.5 with
`BOID_MIN_SPEED = 2.0` clamps to magnitude exactly 2.0. -/
theorem speed_clamp_in_range_witness :
    Vec2.length ⟨1.5, 0⟩ ≠ 0 ∧ (clampSpeed ⟨1.5, 0⟩).length = BOID_MIN_SPEED := by
  have hl : Vec2.length (⟨1.5, 0⟩ : Vec2) = 1.5 := by
    simp only [Vec2.length, Vec2.lengthSq]
    rw [show (1.5 : ℝ) * 1.5 + 0 * 0 = 1.5 ^ 2 by norm_num,
      Real.sqrt_sq (by norm_num : (0 : ℝ) ≤ 1.5)]
  have hne : Vec2.length (⟨1.5, 0⟩ : Vec2) ≠ 0 := by rw [hl]; norm_num
  refine ⟨hne, (((speed_clamp_in_range ⟨1.5, 0⟩ hne).2.1 ?_).2.1)⟩
  rw [hl]; norm_num [BOID_MIN_SPEED]

/-- C7 counterexample: the claim's particular case puts an agent exactly at
the boundary margin edge (`pos.x = (res.x - BOID_BOUNDARY_SIZE) / 2`, here
`(800 - 150) / 2 = 325`) and asserts one integration step increases the
inward velocity component by exactly the turn factor.  The code's checks are
strict (`translation.x > width`), so at the edge the boundary block leaves the
velocity unchanged, and the turn factor is nonzero. -/
theorem boundary_edge_no_nudge_cex :
    applyBoundary ⟨(800 - BOID_BOUNDARY_SIZE) / 2, 0⟩ ⟨800, 400⟩ ⟨1, 1⟩ = ⟨1, 1⟩ ∧
    BOID_TURN_FACTOR ≠ 0 := by
  constructor
  · simp only [applyBoundary]
    norm_num [BOID_BOUNDARY_SIZE]
  · norm_num [BOID_TURN_FACTOR]

/-- C7 (amended): whenever the position strictly exceeds the visible-region
half-extent on an axis, the boundary block of `velocity_system` adds exactly
`BOID_TURN_FACTOR` to that axis's velocity component toward the region
center, after the delta was applied and before speed clamping (last
conjunct); at a position exactly equal to the half-extent the component is
unchanged.  The hypotheses keep the half-extents nonnegative (window at least
as large as the margin), which makes the opposing checks exclusive. -/
theorem boundary_steer_additive (res pos v dv : Vec2) (b : BoidState)
    (hw : 0 ≤ (res.x - BOID_BOUNDARY_SIZE) / 2)
    (hh : 0 ≤ (res.y - BOID_BOUNDARY_SIZE) / 2) :
    ((res.x - BOID_BOUNDARY_SIZE) / 2 < pos.x →
      (applyBoundary pos res v).x = v.x - BOID_TURN_FACTOR) ∧
    (pos.x < -((res.x - BOID_BOUNDARY_SIZE) / 2) →
      (applyBoundary pos res v).x = v.x + BOID_TURN_FACTOR) ∧
    (pos.x = (res.x - BOID_BOUNDARY_SIZE) / 2 →
      (applyBoundary pos res v).x = v.x) ∧
    ((res.y - BOID_BOUNDARY_SIZE) / 2 < pos.y →
      (applyBoundary pos res v).y = v.y - BOID_TURN_FACTOR) ∧
    (pos.y < -((res.y - BOID_BOUNDARY_SIZE) / 2) →
      (applyBoundary pos res v).y = v.y + BOID_TURN_FACTOR) ∧
    (pos.y = (res.y - BOID_BOUNDARY_SIZE) / 2 →
      (applyBoundary pos res v).y = v.y) ∧
    (velocityStep res dv b).vel = clampSpeed (applyBoundary b.pos res (Vec2.add b.vel dv)) := by
  refine ⟨?_, ?_, ?_, ?_, ?_, ?_, rfl⟩ <;> intro hp <;> simp only [applyBoundary]
  · rw [if_pos hp,
      if_neg (by linarith : ¬ pos.x < -((res.x - BOID_BOUNDARY_SIZE) / 2))]
  · rw [if_neg (by linarith : ¬ (res.x - BOID_BOUNDARY_SIZE) / 2 < pos.x),
      if_pos hp]
  · have h1 : ¬ (res.x - BOID_BOUNDARY_SIZE) / 2 < pos.x := by
      rw [hp]; exact lt_irrefl _
    have h2 : ¬ pos.x < -((res.x - BOID_BOUNDARY_SIZE) / 2) := by
      rw [hp]; intro hx; linarith
    rw [if_neg h1, if_neg h2]
  · rw [if_pos hp,
      if_neg (by linarith : ¬ pos.y < -((res.y - BOID_BOUNDARY_SIZE) / 2))]
  · rw [if_neg (by linarith : ¬ (res.y - BOID_BOUNDARY_SIZE) / 2 < pos.y),
      if_pos hp]
  · have h1 : ¬ (res.y - BOID_BOUNDARY_SIZE) / 2 < pos.y := by
      rw [hp]; exact lt_irrefl _
    have h2 : ¬ pos.y < -((res.y - BOID_BOUNDARY_SIZE) / 2) := by
      rw [hp]; intro hy; linarith
    rw [if_neg h1, if_neg h2]

/-- Witness for C7 (amended): window 800x400, agent just beyond the +x
half-extent. -/
theorem boundary_steer_additive_witness :
    (0 ≤ ((⟨800, 400⟩ : Vec2).x - BOID_BOUNDARY_SIZE) / 2) ∧
    (0 ≤ ((⟨800, 400⟩ : Vec2).y - BOID_BOUNDARY_SIZE) / 2) ∧
    (((⟨800, 400⟩ : Vec2).x - BOID_BOUNDARY_SIZE) / 2 < (⟨326, 0⟩ : Vec2).x →
      (applyBoundary ⟨326, 0⟩ ⟨800, 400⟩ ⟨1, 1⟩).x = (⟨1, 1⟩ : Vec2).x - BOID_TURN_FACTOR) := by
  have hw : (0 : ℝ) ≤ ((⟨800, 400⟩ : Vec2).x - BOID_BOUNDARY_SIZE) / 2 := by
    norm_num [BOID_BOUNDARY_SIZE]
  have hh : (0 : ℝ) ≤ ((⟨800, 400⟩ : Vec2).y - BOID_BOUNDARY_SIZE) / 2 := by
    norm_num [BOID_BOUNDARY_SIZE]
  exact ⟨hw, hh,
    (boundary_steer_additive ⟨800, 400⟩ ⟨326, 0⟩ ⟨1, 1⟩ Vec2.zero boidAtOrigin hw hh).1⟩

/-! Helper lemmas for evaluating the scan loop. -/

theorem flockingLoop_nil {self : Entity} {t0 : BoidState}
    {store : Entity → Option BoidState} {acc : Accum} :
    flockingLoop self t0 store acc [] = some acc := rfl

theorem flockingLoop_cons_some {self : Entity} {t0 : BoidState}
    {store : Entity → Option BoidState} {acc a : Accum} {e : Entity}
    {rest : List Entity} (h : flockingStep self t0 store acc e = some a) :
    flockingLoop self t0 store acc (e :: rest) = flockingLoop self t0 store a rest := by
  simp only [flockingLoop, h]

/-- C3 counterexample: self at the origin facing +x, candidate 10 units to the
side, so the angle between forward and the direction to the candidate is 90°,
which exceeds half the configured field of view (60°).  The claim says such a
candidate is skipped; the code accumulates it as a cohesion/alignment
neighbor, because its threshold is the full `BOID_FOV` (120°), not half. -/
theorem fov_half_angle_cex :
    flockingStep 0 boidAtOrigin storeSide Accum.init 1 =
      some { Accum.init with
               avgPos := Vec2.add Accum.init.avgPos (vecBetween boidAtOrigin.pos ⟨0, 10⟩),
               avgVel := Vec2.add Accum.init.avgVel Vec2.zero,
               neighboringBoids := Accum.init.neighboringBoids + 1 } ∧
    BOID_FOV / 2 <
      angularDist boidAtOrigin.rot (dirAngle (vecBetween boidAtOrigin.pos ⟨0, 10⟩)) := by
  have hrot : boidAtOrigin.rot = 0 := rfl
  have hd : dirAngle (vecBetween boidAtOrigin.pos ⟨0, 10⟩) = Real.pi / 2 :=
    dirAngle_of_pos_imag (by norm_num [vecBetween, Vec2.sub, boidAtOrigin])
      (by norm_num [vecBetween, Vec2.sub, boidAtOrigin])
  have hang : angularDist boidAtOrigin.rot (dirAngle (vecBetween boidAtOrigin.pos ⟨0, 10⟩))
      = Real.pi / 2 := by
    rw [hrot, hd, angularDist_zero_half_pi]
  have hvis : ¬ VIS_RANGE_SQ < (vecBetween boidAtOrigin.pos ⟨0, 10⟩).lengthSq := by
    norm_num [vecBetween, Vec2.sub, Vec2.lengthSq, boidAtOrigin, VIS_RANGE_SQ,
      BOID_VIS_RANGE]
  have hnfov : ¬ fovExcludes boidAtOrigin.rot (vecBetween boidAtOrigin.pos ⟨0, 10⟩) := by
    intro hx
    obtain ⟨-, h2⟩ := hx
    rw [hang] at h2
    exact absurd h2 (not_lt.2 half_pi_le_BOID_FOV)
  have hprot : ¬ (vecBetween boidAtOrigin.pos ⟨0, 10⟩).lengthSq < PROT_RANGE_SQ := by
    norm_num [vecBetween, Vec2.sub, Vec2.lengthSq, boidAtOrigin, PROT_RANGE_SQ,
      BOID_PROT_RANGE]
  refine ⟨flockingStep_neighbor rfl (by decide) hvis hnfov hprot, ?_⟩
  rw [hang]
  exact half_BOID_FOV_lt_half_pi

/-- C3 (amended): for a resolvable, non-self, in-visibility-range candidate
with a normalizable direction, `flocking_dv` skips it exactly when the angle
between forward and the direction to it exceeds the full configured
`BOID_FOV` constant (120°, i.e. a symmetric cone of half-angle 120°); in
particular an angle of 180° (directly behind) is skipped and an angle of 0°
(directly ahead) is not. -/
theorem fov_filter_full_angle (store : Entity → Option BoidState) (self e : Entity)
    (t0 other : BoidState) (acc : Accum)
    (hs : store e = some other) (hne : e ≠ self)
    (hv : vecBetween t0.pos other.pos ≠ Vec2.zero)
    (hvis : ¬ VIS_RANGE_SQ < (vecBetween t0.pos other.pos).lengthSq) :
    (flockingStep self t0 store acc e = some acc ↔
      BOID_FOV < angularDist t0.rot (dirAngle (vecBetween t0.pos other.pos))) ∧
    (angularDist t0.rot (dirAngle (vecBetween t0.pos other.pos)) = Real.pi →
      flockingStep self t0 store acc e = some acc) ∧
    (angularDist t0.rot (dirAngle (vecBetween t0.pos other.pos)) = 0 →
      flockingStep self t0 store acc e ≠ some acc) := by
  have hiff : flockingStep self t0 store acc e = some acc ↔
      BOID_FOV < angularDist t0.rot (dirAngle (vecBetween t0.pos other.pos)) := by
    constructor
    · intro hstep
      by_contra hangle
      have hnfov : ¬ fovExcludes t0.rot (vecBetween t0.pos other.pos) :=
        fun hx => hangle hx.2
      by_cases hprot : (vecBetween t0.pos other.pos).lengthSq < PROT_RANGE_SQ
      · rw [flockingStep_close hs hne hvis hnfov hprot] at hstep
        have h2 : acc.closeBoids + 1 = acc.closeBoids := by
          simpa using congrArg Accum.closeBoids (Option.some.inj hstep)
        omega
      · rw [flockingStep_neighbor hs hne hvis hnfov hprot] at hstep
        have h2 : acc.neighboringBoids + 1 = acc.neighboringBoids := by
          simpa using congrArg Accum.neighboringBoids (Option.some.inj hstep)
        omega
    · intro hangle
      exact flockingStep_fov hs hne hvis ⟨hv, hangle⟩
  refine ⟨hiff, fun hpi => hiff.2 (by rw [hpi]; exact BOID_FOV_lt_pi),
    fun h0 hstep => ?_⟩
  have hlt := hiff.1 hstep
  rw [h0] at hlt
  exact absurd hlt (not_lt.2 BOID_FOV_nonneg)

/-- Witness for C3 (amended): a candidate directly behind the agent (10 units
toward -x, agent facing +x): the angle is 180°, exceeding 120°, and the
candidate is skipped. -/
theorem fov_filter_full_angle_witness :
    ((1 : Entity) ≠ 0) ∧
    vecBetween boidAtOrigin.pos ⟨-10, 0⟩ ≠ Vec2.zero ∧
    (¬ VIS_RANGE_SQ < (vecBetween boidAtOrigin.pos ⟨-10, 0⟩).lengthSq) ∧
    ((flockingStep 0 boidAtOrigin storeBehind Accum.init 1 = some Accum.init ↔
        BOID_FOV < angularDist boidAtOrigin.rot
          (dirAngle (vecBetween boidAtOrigin.pos ⟨-10, 0⟩))) ∧
      (angularDist boidAtOrigin.rot (dirAngle (vecBetween boidAtOrigin.pos ⟨-10, 0⟩))
          = Real.pi →
        flockingStep 0 boidAtOrigin storeBehind Accum.init 1 = some Accum.init) ∧
      (angularDist boidAtOrigin.rot (dirAngle (vecBetween boidAtOrigin.pos ⟨-10, 0⟩))
          = 0 →
        flockingStep 0 boidAtOrigin storeBehind Accum.init 1 ≠ some Accum.init)) := by
  have hne : (1 : Entity) ≠ 0 := by decide
  have hv : vecBetween boidAtOrigin.pos (⟨-10, 0⟩ : Vec2) ≠ Vec2.zero := by
    simp only [vecBetween, Vec2.sub, boidAtOrigin, Vec2.zero, ne_eq, Vec2.mk.injEq,
      not_and]
    norm_num
  have hvis : ¬ VIS_RANGE_SQ < (vecBetween boidAtOrigin.pos (⟨-10, 0⟩ : Vec2)).lengthSq := by
    norm_num [vecBetween, Vec2.sub, Vec2.lengthSq, boidAtOrigin, VIS_RANGE_SQ,
      BOID_VIS_RANGE]
  exact ⟨hne, hv, hvis,
    fov_filter_full_angle storeBehind 0 1 boidAtOrigin ⟨⟨-10, 0⟩, 0, Vec2.zero⟩
      Accum.init rfl hne hv hvis⟩

/-- C6: a resolvable, non-self candidate at a distinct position, within
protected range and within the field of view, contributes exactly a
separation update: `vec_away` decreases by the direction-to-candidate (a
vector pointing away from the neighbor, with a strictly positive magnitude
factor along the unit direction), the close-neighbor counter increments, and
the cohesion (`avg_position`), alignment (`avg_velocity`) and
cohesion/alignment counter fields are untouched. -/
theorem separation_term_away (store : Entity → Option BoidState) (self e : Entity)
    (t0 other : BoidState) (acc : Accum)
    (hs : store e = some other) (hne : e ≠ self)
    (hv : vecBetween t0.pos other.pos ≠ Vec2.zero)
    (hprot : (vecBetween t0.pos other.pos).lengthSq < PROT_RANGE_SQ)
    (hfov : ¬ BOID_FOV < angularDist t0.rot (dirAngle (vecBetween t0.pos other.pos))) :
    flockingStep self t0 store acc e =
      some { acc with vecAway := Vec2.sub acc.vecAway (vecBetween t0.pos other.pos),
                      closeBoids := acc.closeBoids + 1 } ∧
    ∃ r : ℝ, 0 < r ∧
      Vec2.sub acc.vecAway (vecBetween t0.pos other.pos) =
        Vec2.add acc.vecAway
          (((vecBetween t0.pos other.pos).scale
            (1 / (vecBetween t0.pos other.pos).length)).scale (-r)) := by
  have hvis : ¬ VIS_RANGE_SQ < (vecBetween t0.pos other.pos).lengthSq := by
    intro hgt
    have hlt : PROT_RANGE_SQ < VIS_RANGE_SQ := by
      norm_num [PROT_RANGE_SQ, VIS_RANGE_SQ, BOID_PROT_RANGE, BOID_VIS_RANGE]
    linarith
  have hnfov : ¬ fovExcludes t0.rot (vecBetween t0.pos other.pos) := fun hx => hfov hx.2
  have hL : (0 : ℝ) < (vecBetween t0.pos other.pos).length := Vec2.length_pos hv
  refine ⟨flockingStep_close hs hne hvis hnfov hprot,
    (vecBetween t0.pos other.pos).length, hL, ?_⟩
  have hLne : (vecBetween t0.pos other.pos).length ≠ 0 := ne_of_gt hL
  apply Vec2.ext <;> simp only [Vec2.sub, Vec2.add, Vec2.scale] <;> field_simp <;> ring

/-- Witness for C6: the agent at the origin facing +x, a neighbor 5 units
directly ahead (distance 5 < protected range 8, angle 0). -/
theorem separation_term_away_witness :
    ((vecBetween boidAtOrigin.pos ⟨5, 0⟩).lengthSq < PROT_RANGE_SQ) ∧
    (¬ BOID_FOV < angularDist boidAtOrigin.rot
        (dirAngle (vecBetween boidAtOrigin.pos ⟨5, 0⟩))) ∧
    (flockingStep 0 boidAtOrigin storeAhead Accum.init 1 =
      some { Accum.init with
               vecAway := Vec2.sub Accum.init.vecAway (vecBetween boidAtOrigin.pos ⟨5, 0⟩),
               closeBoids := Accum.init.closeBoids + 1 } ∧
    ∃ r : ℝ, 0 < r ∧
      Vec2.sub Accum.init.vecAway (vecBetween boidAtOrigin.pos ⟨5, 0⟩) =
        Vec2.add Accum.init.vecAway
          (((vecBetween boidAtOrigin.pos ⟨5, 0⟩).scale
            (1 / (vecBetween boidAtOrigin.pos ⟨5, 0⟩).length)).scale (-r))) := by
  have hv : vecBetween boidAtOrigin.pos (⟨5, 0⟩ : Vec2) ≠ Vec2.zero := by
    simp only [vecBetween, Vec2.sub, boidAtOrigin, Vec2.zero, ne_eq, Vec2.mk.injEq,
      not_and]
    norm_num
  have hprot : (vecBetween boidAtOrigin.pos (⟨5, 0⟩ : Vec2)).lengthSq < PROT_RANGE_SQ := by
    norm_num [vecBetween, Vec2.sub, Vec2.lengthSq, boidAtOrigin, PROT_RANGE_SQ,
      BOID_PROT_RANGE]
  have hd : dirAngle (vecBetween boidAtOrigin.pos ⟨5, 0⟩) = 0 :=
    dirAngle_of_pos_real (by norm_num [vecBetween, Vec2.sub, boidAtOrigin])
      (by norm_num [vecBetween, Vec2.sub, boidAtOrigin])
  have hfov : ¬ BOID_FOV < angularDist boidAtOrigin.rot
      (dirAngle (vecBetween boidAtOrigin.pos ⟨5, 0⟩)) := by
    rw [show boidAtOrigin.rot = 0 from rfl, hd, angularDist_self]
    exact not_lt.2 BOID_FOV_nonneg
  exact ⟨hprot, hfov,
    separation_term_away storeAhead 0 1 boidAtOrigin ⟨⟨5, 0⟩, 0, Vec2.zero⟩
      Accum.init rfl (by decide) hv hprot hfov⟩

/-- C10 (amended): a resolvable, non-self candidate exactly coincident with
the agent passes the visibility and field-of-view filters (the zero direction
is not normalizable, so no exclusion), increments only the close-neighbor
counter and adds the zero vector to the separation sum (first conjunct); and
a coincident close neighbor dilutes the averaged separation term, strictly
reducing its magnitude exactly when the other close neighbors' accumulated
separation sum is nonzero (second conjunct; the counterexample shows the
reduction is not strict when that sum is zero). -/
theorem coincident_neighbor_dilution :
    (∀ (store : Entity → Option BoidState) (self e : Entity) (t0 other : BoidState)
        (acc : Accum), store e = some other → e ≠ self →
        vecBetween t0.pos other.pos = Vec2.zero →
        flockingStep self t0 store acc e =
          some { acc with closeBoids := acc.closeBoids + 1 }) ∧
    (∀ (t0 : BoidState) (s : Vec2) (k : ℕ), 1 ≤ k → s ≠ Vec2.zero →
      (flockingFinish t0 none ⟨s, Vec2.zero, Vec2.zero, 0, k + 1⟩).length <
        (flockingFinish t0 none ⟨s, Vec2.zero, Vec2.zero, 0, k⟩).length) := by
  constructor
  · intro store self e t0 other acc hs hne hv0
    have hvis : ¬ VIS_RANGE_SQ < (vecBetween t0.pos other.pos).lengthSq := by
      rw [hv0]
      norm_num [Vec2.lengthSq, Vec2.zero, VIS_RANGE_SQ, BOID_VIS_RANGE]
    have hnfov : ¬ fovExcludes t0.rot (vecBetween t0.pos other.pos) := by
      rw [hv0]
      exact fun hx => hx.1 rfl
    have hprot : (vecBetween t0.pos other.pos).lengthSq < PROT_RANGE_SQ := by
      rw [hv0]
      norm_num [Vec2.lengthSq, Vec2.zero, PROT_RANGE_SQ, BOID_PROT_RANGE]
    rw [flockingStep_close hs hne hvis hnfov hprot, hv0, Vec2.sub_zero']
  · intro t0 s k hk hs0
    have hfin : ∀ m : ℕ, 0 < m →
        flockingFinish t0 none ⟨s, Vec2.zero, Vec2.zero, 0, m⟩ =
          (s.divS (m : ℝ)).scale BOID_AVOID_FACTOR := by
      intro m hm
      simp [flockingFinish, hm, Vec2.zero_add']
    rw [hfin (k + 1) (by omega), hfin k (by omega),
      Vec2.length_scale, Vec2.length_scale, Vec2.length_divS, Vec2.length_divS,
      abs_of_nonneg (Nat.cast_nonneg (α := ℝ) (k + 1)),
      abs_of_nonneg (Nat.cast_nonneg (α := ℝ) k)]
    have hsl : 0 < s.length := Vec2.length_pos hs0
    have hk0 : (0 : ℝ) < (k : ℝ) := by exact_mod_cast Nat.lt_of_lt_of_le Nat.zero_lt_one hk
    have hkk : (k : ℝ) < ((k + 1 : ℕ) : ℝ) := by push_cast; linarith
    have havoid : (0 : ℝ) < |BOID_AVOID_FACTOR| := by norm_num [BOID_AVOID_FACTOR]
    exact mul_lt_mul_of_pos_left (div_lt_div_of_pos_left hsl hk0 hkk) havoid

/-- Witness for C10 (amended): the coincident candidate of `storeCoincident`
is counted as a close neighbor without touching the separation sum, and with
one other close neighbor whose separation sum is `(1, 0)` the strict dilution
holds. -/
theorem coincident_neighbor_dilution_witness :
    (vecBetween boidAtOrigin.pos (⟨0, 0⟩ : Vec2) = Vec2.zero ∧
      flockingStep 0 boidAtOrigin storeCoincident Accum.init 3 =
        some { Accum.init with closeBoids := Accum.init.closeBoids + 1 }) ∧
    ((⟨1, 0⟩ : Vec2) ≠ Vec2.zero ∧
      (flockingFinish boidAtOrigin none ⟨⟨1, 0⟩, Vec2.zero, Vec2.zero, 0, 2⟩).length <
        (flockingFinish boidAtOrigin none ⟨⟨1, 0⟩, Vec2.zero, Vec2.zero, 0, 1⟩).length) := by
  have hv0 : vecBetween boidAtOrigin.pos (⟨0, 0⟩ : Vec2) = Vec2.zero := by
    apply Vec2.ext <;> norm_num [vecBetween, Vec2.sub, boidAtOrigin, Vec2.zero]
  have hs0 : (⟨1, 0⟩ : Vec2) ≠ Vec2.zero := by
    simp only [Vec2.zero, ne_eq, Vec2.mk.injEq, not_and]
    norm_num
  exact ⟨⟨hv0, coincident_neighbor_dilution.1 storeCoincident 0 3 boidAtOrigin
      ⟨⟨0, 0⟩, 0, Vec2.zero⟩ Accum.init rfl (by decide) hv0⟩,
    ⟨hs0, coincident_neighbor_dilution.2 boidAtOrigin ⟨1, 0⟩ 1 le_rfl hs0⟩⟩

/-- C10 counterexample: the agent at the origin (facing +x) has two close
neighbors at (0, 1) and (0, -1), both within the field of view and the
protected range, whose direction contributions cancel, so the separation sum
is the zero vector.  Adding the coincident neighbor (candidate 3) makes three
close neighbors with the same zero sum, and the averaged separation term's
magnitude stays 0 instead of being strictly reduced — the claim's "strictly
reduces the magnitude" fails at this input. -/
theorem coincident_no_strict_dilution_cex :
    flockingAccum storeCoincident 0 boidAtOrigin [1, 2, 3] =
      some ⟨Vec2.zero, Vec2.zero, Vec2.zero, 0, 3⟩ ∧
    flockingDv storeCoincident 0 boidAtOrigin [1, 2] none = some Vec2.zero ∧
    flockingDv storeCoincident 0 boidAtOrigin [1, 2, 3] none = some Vec2.zero ∧
    ¬ Vec2.length Vec2.zero < Vec2.length Vec2.zero := by
  have hrot : boidAtOrigin.rot = 0 := rfl
  have hd1 : dirAngle (vecBetween boidAtOrigin.pos ⟨0, 1⟩) = Real.pi / 2 :=
    dirAngle_of_pos_imag (by norm_num [vecBetween, Vec2.sub, boidAtOrigin])
      (by norm_num [vecBetween, Vec2.sub, boidAtOrigin])
  have hd2 : dirAngle (vecBetween boidAtOrigin.pos ⟨0, -1⟩) = -(Real.pi / 2) :=
    dirAngle_of_neg_imag (by norm_num [vecBetween, Vec2.sub, boidAtOrigin])
      (by norm_num [vecBetween, Vec2.sub, boidAtOrigin])
  have hfov1 : ¬ fovExcludes boidAtOrigin.rot (vecBetween boidAtOrigin.pos ⟨0, 1⟩) := by
    intro hx
    obtain ⟨-, h2⟩ := hx
    rw [hrot, hd1, angularDist_zero_half_pi] at h2
    exact absurd h2 (not_lt.2 half_pi_le_BOID_FOV)
  have hfov2 : ¬ fovExcludes boidAtOrigin.rot (vecBetween boidAtOrigin.pos ⟨0, -1⟩) := by
    intro hx
    obtain ⟨-, h2⟩ := hx
    rw [hrot, hd2, angularDist_zero_neg_half_pi] at h2
    exact absurd h2 (not_lt.2 half_pi_le_BOID_FOV)
  have hv3 : vecBetween boidAtOrigin.pos (⟨0, 0⟩ : Vec2) = Vec2.zero := by
    apply Vec2.ext <;> norm_num [vecBetween, Vec2.sub, boidAtOrigin, Vec2.zero]
  have hfov3 : ¬ fovExcludes boidAtOrigin.rot (vecBetween boidAtOrigin.pos ⟨0, 0⟩) :=
    fun hx => hx.1 hv3
  have hvis1 : ¬ VIS_RANGE_SQ < (vecBetween boidAtOrigin.pos ⟨0, 1⟩).lengthSq := by
    norm_num [vecBetween, Vec2.sub, Vec2.lengthSq, boidAtOrigin, VIS_RANGE_SQ,
      BOID_VIS_RANGE]
  have hvis2 : ¬ VIS_RANGE_SQ < (vecBetween boidAtOrigin.pos ⟨0, -1⟩).lengthSq := by
    norm_num [vecBetween, Vec2.sub, Vec2.lengthSq, boidAtOrigin, VIS_RANGE_SQ,
      BOID_VIS_RANGE]
  have hvis3 : ¬ VIS_RANGE_SQ < (vecBetween boidAtOrigin.pos ⟨0, 0⟩).lengthSq := by
    norm_num [vecBetween, Vec2.sub, Vec2.lengthSq, boidAtOrigin, VIS_RANGE_SQ,
      BOID_VIS_RANGE]
  have hprot1 : (vecBetween boidAtOrigin.pos ⟨0, 1⟩).lengthSq < PROT_RANGE_SQ := by
    norm_num [vecBetween, Vec2.sub, Vec2.lengthSq, boidAtOrigin, PROT_RANGE_SQ,
      BOID_PROT_RANGE]
  have hprot2 : (vecBetween boidAtOrigin.pos ⟨0, -1⟩).lengthSq < PROT_RANGE_SQ := by
    norm_num [vecBetween, Vec2.sub, Vec2.lengthSq, boidAtOrigin, PROT_RANGE_SQ,
      BOID_PROT_RANGE]
  have hprot3 : (vecBetween boidAtOrigin.pos ⟨0, 0⟩).lengthSq < PROT_RANGE_SQ := by
    norm_num [vecBetween, Vec2.sub, Vec2.lengthSq, boidAtOrigin, PROT_RANGE_SQ,
      BOID_PROT_RANGE]
  have hb1 : storeCoincident 1 = some ⟨⟨0, 1⟩, 0, Vec2.zero⟩ := rfl
  have hb2 : storeCoincident 2 = some ⟨⟨0, -1⟩, 0, Vec2.zero⟩ := rfl
  have hb3 : storeCoincident 3 = some ⟨⟨0, 0⟩, 0, Vec2.zero⟩ := rfl
  have hacc2 : flockingAccum storeCoincident 0 boidAtOrigin [1, 2] =
      some ⟨Vec2.zero, Vec2.zero, Vec2.zero, 0, 2⟩ := by
    unfold flockingAccum
    rw [flockingLoop_cons_some (flockingStep_close hb1 (by decide) hvis1 hfov1 hprot1),
      flockingLoop_cons_some (flockingStep_close hb2 (by decide) hvis2 hfov2 hprot2),
      flockingLoop_nil, Option.some.injEq]
    refine Accum.ext ?_ rfl rfl rfl rfl
    apply Vec2.ext <;>
      norm_num [Accum.init, vecBetween, Vec2.sub, Vec2.zero, boidAtOrigin]
  have hacc3 : flockingAccum storeCoincident 0 boidAtOrigin [1, 2, 3] =
      some ⟨Vec2.zero, Vec2.zero, Vec2.zero, 0, 3⟩ := by
    unfold flockingAccum
    rw [flockingLoop_cons_some (flockingStep_close hb1 (by decide) hvis1 hfov1 hprot1),
      flockingLoop_cons_some (flockingStep_close hb2 (by decide) hvis2 hfov2 hprot2),
      flockingLoop_cons_some (flockingStep_close hb3 (by decide) hvis3 hfov3 hprot3),
      flockingLoop_nil, Option.some.injEq]
    refine Accum.ext ?_ rfl rfl rfl rfl
    apply Vec2.ext <;>
      norm_num [Accum.init, vecBetween, Vec2.sub, Vec2.zero, boidAtOrigin]
  have hfinzero : ∀ m : ℕ, 0 < m →
      flockingFinish boidAtOrigin none ⟨Vec2.zero, Vec2.zero, Vec2.zero, 0, m⟩ =
        Vec2.zero := by
    intro m hm
    simp only [flockingFinish, hm, if_pos, if_true]
    norm_num
    apply Vec2.ext <;> simp [Vec2.add, Vec2.divS, Vec2.scale, Vec2.zero]
  refine ⟨hacc3, ?_, ?_, lt_irrefl _⟩
  · unfold flockingDv
    rw [hacc2, Option.map_some', hfinzero 2 (by omega)]
  · unfold flockingDv
    rw [hacc3, Option.map_some', hfinzero 3 (by omega)]
